import Mathlib

/-!
Shallow embedding of the outbound-call orchestration system
(`constants.py`, `models.py`, `phone_numbers.py`, `controller.py`).

Modelling conventions:
* Python dictionaries with a default (`defaultdict(int)`, `defaultdict(list)`)
  are modelled as total functions with that default; the plain dictionary
  `call_records` (whose lookup raises `KeyError`) is modelled as a function
  into `Option CallRecord`, and operations that can hit a `KeyError` return
  `Option`.
* Python `set` objects are modelled as duplicate-free lists; `set.pop()`
  removes the head of the list (the source's choice of popped element is
  unspecified).
* `datetime.now()` is modelled by an explicit parameter `now : Nat`
  (measured in minutes, matching `timedelta(minutes=...)`); one call-level
  operation uses a single instant.
* The asyncio locks serialize each operation; each method is embedded as a
  pure state transformer on the component's state.
* The call-execution provider (`_simulate_phone_call`) is the external
  collaborator: `execute_call` is embedded parameterized by a provider of
  type `CallRecord → Except Unit CallStatus` (`Except.error` models a raised
  exception), and `CallManager.execute_call` instantiates it with the
  embedding of the concrete deterministic simulator, which never raises.
-/

namespace Mandolin

/-- Embeds `constants.py`: the `CallStatus` enum. -/
inductive CallStatus where
  | SCHEDULED
  | IN_PROGRESS
  | SUCCESS
  | BUSY
  | NO_ANSWER
  | FAILED
deriving DecidableEq, Repr

/-- Embeds `models.py`: the `Company` dataclass. -/
structure Company where
  id : String
  name : String
  phone_number : String
  max_concurrent_calls : Nat
deriving DecidableEq, Repr

/-- Embeds `models.py`: the `CallRecord` dataclass.  The `notes` field is not a
declared dataclass field in the source; it is the attribute dynamically
assigned by `CallManager._handle_failed_call`, so it is modelled as an
`Option String` that starts out absent. -/
structure CallRecord where
  id : String
  company : Company
  status : CallStatus
  scheduled_time : Nat
  outbound_phone : String
  start_time : Option Nat := none
  end_time : Option Nat := none
  attempt_count : Nat := 0
  max_attempts : Nat := 3
  notes : Option String := none
deriving DecidableEq, Repr

/-! Section: `phone_numbers.py`: PhoneNumberPool -/

/-- Python `set.add`: inserting an element already present is a no-op. -/
def setInsert (x : String) (l : List String) : List String :=
  if x ∈ l then l else x :: l

/-- State of `PhoneNumberPool`: the two phone sets, as duplicate-free lists. -/
structure PhoneNumberPool where
  available_phones : List String
  in_use_phones : List String
deriving DecidableEq, Repr

namespace PhoneNumberPool

/-- Embeds `PhoneNumberPool.__init__`: `set(phone_numbers)` dedups the input;
`in_use_phones` starts empty. -/
def init (phone_numbers : List String) : PhoneNumberPool :=
  { available_phones := phone_numbers.dedup, in_use_phones := [] }

/-- Embeds `PhoneNumberPool.acquire_phone`: if no phone is available return `None`;
otherwise pop one available phone, add it to the in-use set, and return it. -/
def acquire_phone (p : PhoneNumberPool) : Option String × PhoneNumberPool :=
  match p.available_phones with
  | [] => (none, p)
  | phone :: rest =>
      (some phone,
       { available_phones := rest, in_use_phones := setInsert phone p.in_use_phones })

/-- Embeds `PhoneNumberPool.release_phone`: if the phone is recorded as in use, move
it back to the available set; otherwise do nothing. -/
def release_phone (p : PhoneNumberPool) (phone : String) : PhoneNumberPool :=
  if phone ∈ p.in_use_phones then
    { available_phones := setInsert phone p.available_phones,
      in_use_phones := p.in_use_phones.erase phone }
  else p

end PhoneNumberPool

/-! Section: `controller.py`: CompanyCallTracker -/

/-- State of `CompanyCallTracker`: the `defaultdict(int)` of per-company
active-call counts, modelled as a total function defaulting to 0. -/
structure CompanyCallTracker where
  active_calls : String → Nat

namespace CompanyCallTracker

/-- Embeds `CompanyCallTracker.__init__`: all counts start at the default 0. -/
def init : CompanyCallTracker := ⟨fun _ => 0⟩

/-- Embeds `CompanyCallTracker.can_make_call`: check whether the company has
additional capacity. -/
def can_make_call (t : CompanyCallTracker) (company : Company) : Bool :=
  t.active_calls company.id < company.max_concurrent_calls

/-- Embeds `CompanyCallTracker.increment_active_calls`: under the lock, increment the
company's count and return `True` only if the count is below the ceiling;
otherwise leave the state alone and return `False`. -/
def increment_active_calls (t : CompanyCallTracker) (company : Company) :
    Bool × CompanyCallTracker :=
  if t.active_calls company.id < company.max_concurrent_calls then
    (true, ⟨Function.update t.active_calls company.id (t.active_calls company.id + 1)⟩)
  else
    (false, t)

/-- Embeds `CompanyCallTracker.decrement_active_calls`: under the lock, decrement the
company's count only if it is strictly positive. -/
def decrement_active_calls (t : CompanyCallTracker) (company : Company) :
    CompanyCallTracker :=
  if t.active_calls company.id > 0 then
    ⟨Function.update t.active_calls company.id (t.active_calls company.id - 1)⟩
  else t

/-- Embeds `CompanyCallTracker.get_company_calls`: read a company's count. -/
def get_company_calls (t : CompanyCallTracker) (company_id : String) : Nat :=
  t.active_calls company_id

end CompanyCallTracker

/-! Section: `controller.py`: CallManager -/

/-- State of `CallManager`: the pool, the tracker, the `call_records` dict
(plain dict: missing key = `KeyError`, hence `Option`), and the
`call_history` `defaultdict(list)`. -/
structure CallManager where
  phone_pool : PhoneNumberPool
  company_tracker : CompanyCallTracker
  call_records : String → Option CallRecord
  call_history : String → List CallRecord

namespace CallManager

/-- Embeds `CallManager.__init__`. -/
def init (phone_numbers : List String) : CallManager :=
  { phone_pool := PhoneNumberPool.init phone_numbers,
    company_tracker := CompanyCallTracker.init,
    call_records := fun _ => none,
    call_history := fun _ => [] }

/-- Store (or overwrite) a record in `call_records`. -/
def setRecord (m : CallManager) (call_id : String) (r : CallRecord) : CallManager :=
  { m with call_records := Function.update m.call_records call_id (some r) }

end CallManager

/-- Embeds `CallManager._reschedule_call`, record part: `scheduled_time` becomes
now + 2 ^ attempt_count minutes (exponential backoff) and the status is reset
to SCHEDULED. -/
def reschedule_record (r : CallRecord) (now : Nat) : CallRecord :=
  { r with scheduled_time := now + 2 ^ r.attempt_count,
           status := CallStatus.SCHEDULED }

/-- Embeds `CallManager._handle_failed_call`, record part: reschedule while
`attempt_count < max_attempts`, otherwise record the exhaustion note. -/
def handle_failed_record (r : CallRecord) (now : Nat) : CallRecord :=
  if r.attempt_count < r.max_attempts then
    reschedule_record r now
  else
    { r with notes := some "Max retry attempts reached" }

namespace CallManager

/-- Embeds `CallManager._reschedule_call` as a state transformer.  The source reads
`self.call_records[call_id]`; every call site passes an id that is present,
so the missing-id branch (a `KeyError` in Python) is unreachable and modelled
as the identity. -/
def reschedule_call (m : CallManager) (call_id : String) (now : Nat) : CallManager :=
  match m.call_records call_id with
  | none => m
  | some r => m.setRecord call_id (reschedule_record r now)

/-- Embeds `CallManager._handle_failed_call` as a state transformer (same remark on
the missing-id branch as for `reschedule_call`). -/
def handle_failed_call (m : CallManager) (call_id : String) (now : Nat) : CallManager :=
  match m.call_records call_id with
  | none => m
  | some r => m.setRecord call_id (handle_failed_record r now)

/-- Embeds `CallManager.schedule_call`: reject when the tracker reports no capacity;
otherwise create a fresh-by-construction record (id derived from the company
id and the current timestamp), store it, and return its id. -/
def schedule_call (m : CallManager) (company : Company)
    (scheduled_time : Nat) (now : Nat) : Option String × CallManager :=
  if ¬ m.company_tracker.can_make_call company then
    (none, m)
  else
    let call_id := "CALL_" ++ company.id ++ "_" ++ toString now
    let call_record : CallRecord :=
      { id := call_id, company := company, status := CallStatus.SCHEDULED,
        scheduled_time := scheduled_time, outbound_phone := "" }
    (some call_id, m.setRecord call_id call_record)

end CallManager

/-- Python `str.endswith`: the characters of `post` are a suffix of those of
`s` (structural definition, equivalent to `String.endsWith`). -/
def strEndsWith (s post : String) : Bool :=
  decide (s.data.reverse.take post.data.length = post.data.reverse)

/-- Embeds `CallManager._simulate_phone_call`, outcome table: deterministic status
from the company id and the (already incremented) attempt number. -/
def simulate_status (company_id : String) (attempt : Nat) : CallStatus :=
  if strEndsWith company_id "4" then CallStatus.FAILED
  else if strEndsWith company_id "1" ∧ attempt = 1 then CallStatus.BUSY
  else if strEndsWith company_id "2" ∧ attempt = 2 then CallStatus.NO_ANSWER
  else if strEndsWith company_id "3" ∧ attempt = 3 then CallStatus.FAILED
  else CallStatus.SUCCESS

/-- The concrete provider: `_simulate_phone_call` sets the status from the
outcome table and never raises. -/
def simulate_phone_call (r : CallRecord) : Except Unit CallStatus :=
  Except.ok (simulate_status r.company.id r.attempt_count)

/-- The statuses treated as failures by `execute_call`'s retry check. -/
def failureStatuses : List CallStatus :=
  [CallStatus.BUSY, CallStatus.NO_ANSWER, CallStatus.FAILED]

/-- The record mutations performed at the top of `execute_call`'s `try`
block (plus the preceding `outbound_phone` assignment): mark IN_PROGRESS,
set `start_time`, increment `attempt_count`. -/
def attemptRecord (r : CallRecord) (phone : String) (now : Nat) : CallRecord :=
  { r with
      outbound_phone := phone,
      status := CallStatus.IN_PROGRESS,
      start_time := some now,
      attempt_count := r.attempt_count + 1 }

/-- The record mutations performed after the provider returned status `st`
for the in-progress record `r2`: set the status, run `_handle_failed_call`
when it is a failure status, and set `end_time`. -/
def outcomeRecord (r2 : CallRecord) (now : Nat) (st : CallStatus) : CallRecord :=
  let r3 : CallRecord := { r2 with status := st }
  let r4 : CallRecord :=
    if st ∈ failureStatuses then handle_failed_record r3 now else r3
  { r4 with end_time := some now }

namespace CallManager

/-- Embeds `CallManager.execute_call`, parameterized by the call-execution provider
(`Except.error` models the provider raising an exception, caught by the
`except` clause).  Returns `none` for the `KeyError` on an unknown call id.

Control flow of the source, in order: look up the record; `try_admit` via
`increment_active_calls`, rescheduling and returning on refusal; acquire a
phone, releasing the admission and rescheduling when none is available
(Python's `if not outbound_phone` also treats an empty-string phone as
falsy); then the `try` block — mark IN_PROGRESS, set `start_time`, increment
`attempt_count`, run the provider, on a failure status run
`_handle_failed_call`, set `end_time`, append the record to the company's
history — with `except` mapping a raised exception to FAILED followed by
`_handle_failed_call` (skipping `end_time` and the history append), and
`finally` releasing the phone and decrementing the tracker. -/
def execute_call_with (provider : CallRecord → Except Unit CallStatus)
    (m : CallManager) (call_id : String) (now : Nat) : Option CallManager :=
  match m.call_records call_id with
  | none => none
  | some call_record =>
    let (admitted, tracker1) := m.company_tracker.increment_active_calls call_record.company
    let m1 : CallManager := { m with company_tracker := tracker1 }
    if ¬ admitted then
      some (m1.reschedule_call call_id now)
    else
      let (phoneOpt, pool1) := m1.phone_pool.acquire_phone
      let m2 : CallManager := { m1 with phone_pool := pool1 }
      match phoneOpt with
      | none =>
          let m3 : CallManager :=
            { m2 with company_tracker :=
                m2.company_tracker.decrement_active_calls call_record.company }
          some (m3.reschedule_call call_id now)
      | some outbound_phone =>
        if outbound_phone = "" then
          let m3 : CallManager :=
            { m2 with company_tracker :=
                m2.company_tracker.decrement_active_calls call_record.company }
          some (m3.reschedule_call call_id now)
        else
          let r2 : CallRecord := attemptRecord call_record outbound_phone now
          let m3 : CallManager :=
            match provider r2 with
            | Except.error _ =>
                m2.setRecord call_id
                  (handle_failed_record { r2 with status := CallStatus.FAILED } now)
            | Except.ok st =>
                let r5 : CallRecord := outcomeRecord r2 now st
                let m' := m2.setRecord call_id r5
                { m' with call_history :=
                    Function.update m'.call_history r2.company.id (m'.call_history r2.company.id ++ [r5]) }
          some { m3 with
                 phone_pool := m3.phone_pool.release_phone outbound_phone,
                 company_tracker :=
                   m3.company_tracker.decrement_active_calls call_record.company }

/-- Embeds `CallManager.execute_call`: the source method, with the concrete
deterministic provider. -/
def execute_call (m : CallManager) (call_id : String) (now : Nat) :
    Option CallManager :=
  execute_call_with simulate_phone_call m call_id now

/-- Embeds `CallManager.get_call_status` (`KeyError` on unknown id ↦ `none`). -/
def get_call_status (m : CallManager) (call_id : String) : Option CallStatus :=
  (m.call_records call_id).map CallRecord.status

/-- Embeds `CallManager.get_company_call_history` (defaultdict read: `[]` for an
unknown company). -/
def get_company_call_history (m : CallManager) (company_id : String) :
    List CallRecord :=
  m.call_history company_id

/-- Embeds `CallManager.get_active_calls`. -/
def get_active_calls (m : CallManager) (company_id : String) : Nat :=
  m.company_tracker.get_company_calls company_id

end CallManager

/-! Section: Operation sequences

To state the "over every sequence of operations" parts of the spec we close
each component's public mutating interface into an inductive operation type
and a fold. -/

/-- A tracker operation: `try_admit` (`increment_active_calls`) or `release`
(`decrement_active_calls`) for some company. -/
inductive TrackerOp where
  | incr (company : Company)
  | release (company : Company)

/-- Run one tracker operation (the Bool result of `try_admit` is dropped). -/
def CompanyCallTracker.runOp (t : CompanyCallTracker) : TrackerOp → CompanyCallTracker
  | TrackerOp.incr c => (t.increment_active_calls c).2
  | TrackerOp.release c => t.decrement_active_calls c

/-- Run a sequence of tracker operations. -/
def CompanyCallTracker.runOps (t : CompanyCallTracker) (ops : List TrackerOp) :
    CompanyCallTracker :=
  ops.foldl CompanyCallTracker.runOp t

/-- The company an operation refers to. -/
def TrackerOp.company : TrackerOp → Company
  | TrackerOp.incr c => c
  | TrackerOp.release c => c

/-- A pool operation: `acquire_phone` (result dropped) or `release_phone`. -/
inductive PoolOp where
  | acquire
  | release (phone : String)

/-- Run one pool operation. -/
def PhoneNumberPool.runOp (p : PhoneNumberPool) : PoolOp → PhoneNumberPool
  | PoolOp.acquire => (p.acquire_phone).2
  | PoolOp.release phone => p.release_phone phone

/-- Run a sequence of pool operations. -/
def PhoneNumberPool.runOps (p : PhoneNumberPool) (ops : List PoolOp) :
    PhoneNumberPool :=
  ops.foldl PhoneNumberPool.runOp p

/-- The pool structural invariant relative to the initial set of phone
numbers: both sides are duplicate-free, disjoint, they partition the initial
set, and their sizes add up to the pool size. -/
def PoolInv (initial : List String) (p : PhoneNumberPool) : Prop :=
  p.available_phones.Nodup ∧
  p.in_use_phones.Nodup ∧
  (∀ x, ¬ (x ∈ p.available_phones ∧ x ∈ p.in_use_phones)) ∧
  (∀ x, (x ∈ p.available_phones ∨ x ∈ p.in_use_phones) ↔ x ∈ initial) ∧
  p.available_phones.length + p.in_use_phones.length = initial.dedup.length

/-- A `CallManager` public operation.  The three getters are included so
that sequences can interleave reads with writes. -/
inductive MgrOp where
  | sched (company : Company) (scheduled_time : Nat) (now : Nat)
  | exec (call_id : String) (now : Nat)
  | getStatus (call_id : String)
  | getHistory (company_id : String)
  | getActive (company_id : String)

namespace CallManager

/-- Run one manager operation on the state.  `get_call_status`,
`get_company_call_history` and `get_active_calls` only read (their return
values are computed by the corresponding functions); an `exec` whose call id
is unknown raises `KeyError` in Python and is modelled as leaving the state
unchanged for the purpose of sequencing. -/
def runOp (m : CallManager) : MgrOp → CallManager
  | MgrOp.sched c t now => (m.schedule_call c t now).2
  | MgrOp.exec call_id now => (m.execute_call call_id now).getD m
  | MgrOp.getStatus _ => m
  | MgrOp.getHistory _ => m
  | MgrOp.getActive _ => m

/-- Run a sequence of manager operations. -/
def runOps (m : CallManager) (ops : List MgrOp) : CallManager :=
  ops.foldl runOp m

end CallManager

/-- Whether, in state `m`, the operation `op` is an *executed attempt* for a
call of company `cid`: an `exec` whose record exists, whose company admission
succeeds, and for which a (truthy) phone is available. -/
def executedAttempt (m : CallManager) (op : MgrOp) (cid : String) : Prop :=
  match op with
  | MgrOp.exec call_id _ =>
      match m.call_records call_id with
      | none => False
      | some r =>
          r.company.id = cid ∧
          (m.company_tracker.increment_active_calls r.company).1 = true ∧
          (∃ ph, m.phone_pool.available_phones.head? = some ph ∧ ph ≠ "")
  | _ => False

instance (m : CallManager) (op : MgrOp) (cid : String) :
    Decidable (executedAttempt m op cid) := by
  unfold executedAttempt
  cases op <;> simp only <;> try exact inferInstance
  case exec call_id now =>
    cases m.call_records call_id <;> simp only <;> exact inferInstance

/-- Count the executed attempts for company `cid` along a sequence of
manager operations starting in state `m`. -/
def countExecuted (m : CallManager) (ops : List MgrOp) (cid : String) : Nat :=
  match ops with
  | [] => 0
  | op :: rest =>
      (if executedAttempt m op cid then 1 else 0) +
        countExecuted (m.runOp op) rest cid

/-! Section: C1: tracker admission invariant -/

lemma increment_active_calls_fst_iff (t : CompanyCallTracker) (c : Company) :
    (t.increment_active_calls c).1 = true ↔
      t.active_calls c.id < c.max_concurrent_calls := by
  unfold CompanyCallTracker.increment_active_calls
  split <;> simp_all

lemma increment_active_calls_snd_of_lt (t : CompanyCallTracker) (c : Company)
    (h : t.active_calls c.id < c.max_concurrent_calls) :
    (t.increment_active_calls c).2.active_calls c.id = t.active_calls c.id + 1 := by
  unfold CompanyCallTracker.increment_active_calls
  simp [h, Function.update_same]

lemma increment_active_calls_snd_of_ge (t : CompanyCallTracker) (c : Company)
    (h : ¬ t.active_calls c.id < c.max_concurrent_calls) :
    (t.increment_active_calls c).2 = t := by
  unfold CompanyCallTracker.increment_active_calls
  simp [h]

lemma decrement_active_calls_zero (t : CompanyCallTracker) (c : Company)
    (h : t.active_calls c.id = 0) :
    t.decrement_active_calls c = t := by
  unfold CompanyCallTracker.decrement_active_calls
  simp [h]

lemma increment_active_calls_apply (t : CompanyCallTracker) (c : Company) (x : String) :
    (t.increment_active_calls c).2.active_calls x =
      if t.active_calls c.id < c.max_concurrent_calls ∧ x = c.id then
        t.active_calls x + 1
      else t.active_calls x := by
  unfold CompanyCallTracker.increment_active_calls
  by_cases hlt : t.active_calls c.id < c.max_concurrent_calls <;>
    by_cases hx : x = c.id
  · subst hx; simp [hlt, Function.update_same]
  · simp [hlt, hx, Function.update_noteq hx]
  · subst hx; simp [hlt]
  · simp [hlt, hx]

lemma decrement_active_calls_apply (t : CompanyCallTracker) (c : Company) (x : String) :
    (t.decrement_active_calls c).active_calls x =
      if t.active_calls c.id > 0 ∧ x = c.id then
        t.active_calls x - 1
      else t.active_calls x := by
  unfold CompanyCallTracker.decrement_active_calls
  by_cases hpos : t.active_calls c.id > 0 <;> by_cases hx : x = c.id
  · subst hx; simp [hpos, Function.update_same]
  · simp [hpos, hx, Function.update_noteq hx]
  · subst hx; simp [hpos]
  · simp [hpos, hx]

lemma tracker_runOp_le (t : CompanyCallTracker) (c : Company) (op : TrackerOp)
    (hcoh : op.company.id = c.id →
      op.company.max_concurrent_calls = c.max_concurrent_calls)
    (h : t.active_calls c.id ≤ c.max_concurrent_calls) :
    (t.runOp op).active_calls c.id ≤ c.max_concurrent_calls := by
  cases op with
  | incr c' =>
    simp only [TrackerOp.company] at hcoh
    simp only [CompanyCallTracker.runOp]
    rw [increment_active_calls_apply]
    split
    · rename_i hcond
      have hmax : c'.max_concurrent_calls = c.max_concurrent_calls :=
        hcoh hcond.2.symm
      have hlt := hcond.1
      rw [hcond.2]
      omega
    · exact h
  | release c' =>
    simp only [CompanyCallTracker.runOp]
    rw [decrement_active_calls_apply]
    split
    · omega
    · exact h

lemma tracker_runOps_le (t : CompanyCallTracker) (c : Company) (ops : List TrackerOp)
    (hcoh : ∀ op ∈ ops, op.company.id = c.id →
      op.company.max_concurrent_calls = c.max_concurrent_calls)
    (h : t.active_calls c.id ≤ c.max_concurrent_calls) :
    (t.runOps ops).active_calls c.id ≤ c.max_concurrent_calls := by
  induction ops generalizing t with
  | nil => simpa [CompanyCallTracker.runOps] using h
  | cons op rest ih =>
    simp only [CompanyCallTracker.runOps, List.foldl_cons]
    exact ih (t.runOp op)
      (fun o ho => hcoh o (List.mem_cons_of_mem _ ho))
      (tracker_runOp_le t c op (hcoh op (List.mem_cons_self _ _)) h)

lemma decrement_active_calls_pos (t : CompanyCallTracker) (c : Company)
    (h : t.active_calls c.id > 0) :
    (t.decrement_active_calls c).active_calls c.id =
      t.active_calls c.id - 1 := by
  rw [decrement_active_calls_apply]
  simp [h]

/-- C1: `increment_active_calls` returns `true` and increments exactly when
the company's active count is strictly below the ceiling (and leaves the
state unchanged otherwise); `decrement_active_calls` at zero is a no-op; and
every sequence of tracker operations whose companies use `c.id`
consistently preserves `active_calls c.id ≤ c.max_concurrent_calls` (the
count is a `Nat`, hence non-negative by construction). -/
theorem C1_tracker_bounded (t : CompanyCallTracker) (c : Company) :
    ((t.increment_active_calls c).1 = true ↔
        t.active_calls c.id < c.max_concurrent_calls) ∧
    (t.active_calls c.id < c.max_concurrent_calls →
        (t.increment_active_calls c).2.active_calls c.id =
          t.active_calls c.id + 1) ∧
    (¬ t.active_calls c.id < c.max_concurrent_calls →
        (t.increment_active_calls c).2 = t) ∧
    (t.active_calls c.id = 0 → t.decrement_active_calls c = t) ∧
    (t.active_calls c.id > 0 →
        (t.decrement_active_calls c).active_calls c.id =
          t.active_calls c.id - 1) ∧
    (∀ ops : List TrackerOp,
        (∀ op ∈ ops, op.company.id = c.id →
            op.company.max_concurrent_calls = c.max_concurrent_calls) →
        t.active_calls c.id ≤ c.max_concurrent_calls →
        (t.runOps ops).active_calls c.id ≤ c.max_concurrent_calls) :=
  ⟨increment_active_calls_fst_iff t c,
   increment_active_calls_snd_of_lt t c,
   increment_active_calls_snd_of_ge t c,
   decrement_active_calls_zero t c,
   decrement_active_calls_pos t c,
   fun ops hcoh h => tracker_runOps_le t c ops hcoh h⟩

/-- Witness for C1 at a concrete tracker, company, and operation sequence. -/
theorem C1_tracker_bounded_witness :
    ((CompanyCallTracker.init.runOps
        [TrackerOp.incr ⟨"A", "n", "p", 2⟩, TrackerOp.incr ⟨"A", "n", "p", 2⟩,
         TrackerOp.incr ⟨"A", "n", "p", 2⟩, TrackerOp.release ⟨"A", "n", "p", 2⟩])
      |>.active_calls "A") ≤ 2 :=
  (C1_tracker_bounded CompanyCallTracker.init ⟨"A", "n", "p", 2⟩).2.2.2.2.2
    [TrackerOp.incr ⟨"A", "n", "p", 2⟩, TrackerOp.incr ⟨"A", "n", "p", 2⟩,
     TrackerOp.incr ⟨"A", "n", "p", 2⟩, TrackerOp.release ⟨"A", "n", "p", 2⟩]
    (by decide) (by decide)

/-! Section: C2: phone-pool token conservation -/

lemma poolInv_init (phones : List String) :
    PoolInv phones (PhoneNumberPool.init phones) := by
  refine ⟨List.nodup_dedup phones, List.nodup_nil, ?_, ?_, ?_⟩
  · intro x hx
    simp [PhoneNumberPool.init] at hx
  · intro x
    simp [PhoneNumberPool.init, List.mem_dedup]
  · simp [PhoneNumberPool.init]

lemma acquire_phone_nil_eq (p : PhoneNumberPool) (h : p.available_phones = []) :
    p.acquire_phone = (none, p) := by
  unfold PhoneNumberPool.acquire_phone
  rw [h]

lemma acquire_phone_cons_eq (p : PhoneNumberPool) (ph : String) (rest : List String)
    (h : p.available_phones = ph :: rest) :
    p.acquire_phone =
      (some ph, ⟨rest, setInsert ph p.in_use_phones⟩) := by
  unfold PhoneNumberPool.acquire_phone
  rw [h]

lemma poolInv_acquire (initial : List String) (p : PhoneNumberPool)
    (hp : PoolInv initial p) : PoolInv initial (p.acquire_phone).2 := by
  obtain ⟨hav, hiu, hdisj, huni, hlen⟩ := hp
  cases hm : p.available_phones with
  | nil =>
    rw [acquire_phone_nil_eq p hm]
    exact ⟨hav, hiu, hdisj, huni, hlen⟩
  | cons ph rest =>
    rw [hm] at hav hdisj huni hlen
    have hphnin : ph ∉ p.in_use_phones :=
      fun hx => hdisj ph ⟨List.mem_cons_self ph rest, hx⟩
    have hq : (p.acquire_phone).2 =
        { available_phones := rest, in_use_phones := ph :: p.in_use_phones } := by
      rw [acquire_phone_cons_eq p ph rest hm]
      unfold setInsert
      simp [hphnin]
    rw [hq]
    rw [List.nodup_cons] at hav
    refine ⟨hav.2, List.nodup_cons.mpr ⟨hphnin, hiu⟩, ?_, ?_, ?_⟩
    · intro x hx
      have hx1 : x ∈ rest := hx.1
      have hx2 : x ∈ ph :: p.in_use_phones := hx.2
      rcases List.mem_cons.mp hx2 with hxe | hxin
      · exact hav.1 (hxe ▸ hx1)
      · exact hdisj x ⟨List.mem_cons_of_mem ph hx1, hxin⟩
    · intro x
      show x ∈ rest ∨ x ∈ ph :: p.in_use_phones ↔ x ∈ initial
      rw [← huni x]
      constructor
      · rintro (hx | hx)
        · exact Or.inl (List.mem_cons_of_mem ph hx)
        · rcases List.mem_cons.mp hx with hxe | hxin
          · exact Or.inl (hxe ▸ List.mem_cons_self ph rest)
          · exact Or.inr hxin
      · rintro (hx | hx)
        · rcases List.mem_cons.mp hx with hxe | hxin
          · exact Or.inr (hxe ▸ List.mem_cons_self ph p.in_use_phones)
          · exact Or.inl hxin
        · exact Or.inr (List.mem_cons_of_mem ph hx)
    · show rest.length + (ph :: p.in_use_phones).length = initial.dedup.length
      simp only [List.length_cons] at hlen ⊢
      omega

lemma poolInv_release (initial : List String) (p : PhoneNumberPool) (phone : String)
    (hp : PoolInv initial p) : PoolInv initial (p.release_phone phone) := by
  obtain ⟨hav, hiu, hdisj, huni, hlen⟩ := hp
  unfold PhoneNumberPool.release_phone
  by_cases hin : phone ∈ p.in_use_phones
  · have hnav : phone ∉ p.available_phones := fun hx => hdisj phone ⟨hx, hin⟩
    have hins : setInsert phone p.available_phones = phone :: p.available_phones := by
      unfold setInsert
      simp [hnav]
    simp only [hin, if_true, hins]
    refine ⟨List.nodup_cons.mpr ⟨hnav, hav⟩, hiu.erase phone, ?_, ?_, ?_⟩
    · intro x hx
      have hx1 : x ∈ phone :: p.available_phones := hx.1
      have hx2 : x ∈ p.in_use_phones.erase phone := hx.2
      rcases List.mem_cons.mp hx1 with hxe | hxin
      · subst hxe
        exact (hiu.mem_erase_iff.mp hx2).1 rfl
      · exact hdisj x ⟨hxin, List.mem_of_mem_erase hx2⟩
    · intro x
      show x ∈ phone :: p.available_phones ∨
        x ∈ p.in_use_phones.erase phone ↔ x ∈ initial
      rw [← huni x]
      constructor
      · rintro (hx | hx)
        · rcases List.mem_cons.mp hx with hxe | hxin
          · exact Or.inr (hxe ▸ hin)
          · exact Or.inl hxin
        · exact Or.inr (List.mem_of_mem_erase hx)
      · rintro (hx | hx)
        · exact Or.inl (List.mem_cons_of_mem phone hx)
        · by_cases hxe : x = phone
          · exact Or.inl (hxe ▸ List.mem_cons_self phone p.available_phones)
          · exact Or.inr ((List.mem_erase_of_ne hxe).mpr hx)
    · show (phone :: p.available_phones).length +
        (p.in_use_phones.erase phone).length = initial.dedup.length
      have hle : 0 < p.in_use_phones.length := List.length_pos_of_mem hin
      rw [List.length_erase_of_mem hin]
      simp only [List.length_cons]
      omega
  · simp only [hin, if_false]
    exact ⟨hav, hiu, hdisj, huni, hlen⟩

lemma poolInv_runOp (initial : List String) (p : PhoneNumberPool) (op : PoolOp)
    (hp : PoolInv initial p) : PoolInv initial (p.runOp op) := by
  cases op with
  | acquire => exact poolInv_acquire initial p hp
  | release phone => exact poolInv_release initial p phone hp

lemma poolInv_runOps (initial : List String) (p : PhoneNumberPool)
    (ops : List PoolOp) (hp : PoolInv initial p) :
    PoolInv initial (p.runOps ops) := by
  induction ops generalizing p with
  | nil => exact hp
  | cons op rest ih =>
    simp only [PhoneNumberPool.runOps, List.foldl_cons]
    exact ih (p.runOp op) (poolInv_runOp initial p op hp)

lemma release_phone_not_in_use (p : PhoneNumberPool) (phone : String)
    (h : phone ∉ p.in_use_phones) : p.release_phone phone = p := by
  unfold PhoneNumberPool.release_phone
  simp [h]

/-- C2: the pool built by `__init__` satisfies the token-conservation
invariant (dup-free, disjoint, partitioning the initial set, with sizes
adding up to the pool size), every sequence of `acquire_phone` /
`release_phone` operations preserves it, `acquire_phone` returns `none`
exactly when the available set is empty (leaving the pool unchanged),
otherwise it moves the popped token from available to in-use, and
`release_phone` of a token not in use is a no-op. -/
theorem C2_pool_conservation (initial : List String) (p : PhoneNumberPool)
    (phone : String) :
    PoolInv initial (PhoneNumberPool.init initial) ∧
    (PoolInv initial p → ∀ ops : List PoolOp, PoolInv initial (p.runOps ops)) ∧
    ((p.acquire_phone).1 = none ↔ p.available_phones = []) ∧
    (p.available_phones = [] → (p.acquire_phone).2 = p) ∧
    (∀ ph rest, p.available_phones = ph :: rest → PoolInv initial p →
        (p.acquire_phone).1 = some ph ∧
        (p.acquire_phone).2.available_phones = rest ∧
        (p.acquire_phone).2.in_use_phones = ph :: p.in_use_phones) ∧
    (phone ∉ p.in_use_phones → p.release_phone phone = p) := by
  refine ⟨poolInv_init initial,
    fun hp ops => poolInv_runOps initial p ops hp, ?_, ?_, ?_,
    release_phone_not_in_use p phone⟩
  · unfold PhoneNumberPool.acquire_phone
    cases hm : p.available_phones <;> simp
  · intro h
    unfold PhoneNumberPool.acquire_phone
    rw [h]
  · intro ph rest hm hp
    have hphnin : ph ∉ p.in_use_phones := fun hx =>
      hp.2.2.1 ph ⟨hm ▸ List.mem_cons_self ph rest, hx⟩
    unfold PhoneNumberPool.acquire_phone
    rw [hm]
    refine ⟨rfl, rfl, ?_⟩
    unfold setInsert
    simp [hphnin]

/-- Witness for C2 at a concrete pool and operation sequence. -/
theorem C2_pool_conservation_witness :
    PoolInv ["a", "b"]
      ((PhoneNumberPool.init ["a", "b"]).runOps
        [PoolOp.acquire, PoolOp.release "a", PoolOp.release "zz"]) :=
  (C2_pool_conservation ["a", "b"] (PhoneNumberPool.init ["a", "b"]) "a").2.1
    (C2_pool_conservation ["a", "b"] (PhoneNumberPool.init ["a", "b"]) "a").1
    [PoolOp.acquire, PoolOp.release "a", PoolOp.release "zz"]

/-! Section: Path characterizations of `execute_call_with` -/

lemma tracker_ext (t₁ t₂ : CompanyCallTracker)
    (h : ∀ x, t₁.active_calls x = t₂.active_calls x) : t₁ = t₂ := by
  cases t₁
  cases t₂
  simp only [CompanyCallTracker.mk.injEq]
  funext x
  exact h x

lemma increment_eq_of_lt (t : CompanyCallTracker) (c : Company)
    (h : t.active_calls c.id < c.max_concurrent_calls) :
    t.increment_active_calls c =
      (true, ⟨Function.update t.active_calls c.id (t.active_calls c.id + 1)⟩) := by
  unfold CompanyCallTracker.increment_active_calls
  rw [if_pos h]

lemma increment_eq_of_ge (t : CompanyCallTracker) (c : Company)
    (h : ¬ t.active_calls c.id < c.max_concurrent_calls) :
    t.increment_active_calls c = (false, t) := by
  unfold CompanyCallTracker.increment_active_calls
  rw [if_neg h]

lemma tracker_incr_decr (t : CompanyCallTracker) (c : Company)
    (h : t.active_calls c.id < c.max_concurrent_calls) :
    ((t.increment_active_calls c).2).decrement_active_calls c = t := by
  apply tracker_ext
  intro x
  simp only [decrement_active_calls_apply, increment_active_calls_apply]
  by_cases hx : x = c.id
  · subst hx
    simp [h]
  · simp [hx]

lemma tracker_update_decr (t : CompanyCallTracker) (c : Company)
    (h : t.active_calls c.id < c.max_concurrent_calls) :
    CompanyCallTracker.decrement_active_calls
      ⟨Function.update t.active_calls c.id (t.active_calls c.id + 1)⟩ c = t := by
  have hh := tracker_incr_decr t c h
  rw [increment_eq_of_lt t c h] at hh
  exact hh

lemma pool_acquire_release (p : PhoneNumberPool) (ph : String) (rest : List String)
    (hav : p.available_phones = ph :: rest)
    (hnr : ph ∉ rest) (hni : ph ∉ p.in_use_phones) :
    ((p.acquire_phone).2).release_phone ph = p := by
  obtain ⟨av, iu⟩ := p
  simp only at hav hni
  subst hav
  rw [acquire_phone_cons_eq _ ph rest rfl]
  show PhoneNumberPool.release_phone ⟨rest, setInsert ph iu⟩ ph = _
  have hins : setInsert ph iu = ph :: iu := by
    unfold setInsert
    simp [hni]
  rw [hins]
  unfold PhoneNumberPool.release_phone
  simp only [List.mem_cons, true_or, if_true]
  have hins2 : setInsert ph rest = ph :: rest := by
    unfold setInsert
    simp [hnr]
  simp [hins2, List.erase_cons_head]

lemma execute_call_with_missing (provider : CallRecord → Except Unit CallStatus)
    (m : CallManager) (call_id : String) (now : Nat)
    (h : m.call_records call_id = none) :
    CallManager.execute_call_with provider m call_id now = none := by
  unfold CallManager.execute_call_with
  rw [h]

lemma execute_call_with_not_admitted (provider : CallRecord → Except Unit CallStatus)
    (m : CallManager) (call_id : String) (now : Nat) (r : CallRecord)
    (hrec : m.call_records call_id = some r)
    (hadm : ¬ m.company_tracker.active_calls r.company.id <
      r.company.max_concurrent_calls) :
    CallManager.execute_call_with provider m call_id now =
      some (m.reschedule_call call_id now) := by
  unfold CallManager.execute_call_with
  rw [hrec]
  simp only [increment_eq_of_ge _ _ hadm]
  rfl

lemma execute_call_with_no_phone (provider : CallRecord → Except Unit CallStatus)
    (m : CallManager) (call_id : String) (now : Nat) (r : CallRecord)
    (hrec : m.call_records call_id = some r)
    (hadm : m.company_tracker.active_calls r.company.id <
      r.company.max_concurrent_calls)
    (hav : m.phone_pool.available_phones = []) :
    CallManager.execute_call_with provider m call_id now =
      some (m.reschedule_call call_id now) := by
  unfold CallManager.execute_call_with
  rw [hrec]
  simp only [increment_eq_of_lt _ _ hadm, acquire_phone_nil_eq _ hav]
  simp only [tracker_update_decr m.company_tracker r.company hadm]
  rfl

lemma pool_insert_release (ph : String) (rest iu : List String)
    (hnr : ph ∉ rest) (hni : ph ∉ iu) :
    PhoneNumberPool.release_phone ⟨rest, setInsert ph iu⟩ ph = ⟨ph :: rest, iu⟩ := by
  have hins : setInsert ph iu = ph :: iu := by
    unfold setInsert
    simp [hni]
  rw [hins]
  unfold PhoneNumberPool.release_phone
  simp only [List.mem_cons, true_or, if_true]
  have hins2 : setInsert ph rest = ph :: rest := by
    unfold setInsert
    simp [hnr]
  simp [hins2]

lemma attemptRecord_company (r : CallRecord) (ph : String) (now : Nat) :
    (attemptRecord r ph now).company = r.company := rfl

lemma acquire_phone_mk_cons (ph : String) (rest iu : List String) :
    PhoneNumberPool.acquire_phone ⟨ph :: rest, iu⟩ =
      (some ph, ⟨rest, setInsert ph iu⟩) := rfl

lemma execute_call_with_main_ok (provider : CallRecord → Except Unit CallStatus)
    (m : CallManager) (call_id : String) (now : Nat) (r : CallRecord)
    (ph : String) (rest : List String) (st : CallStatus)
    (hrec : m.call_records call_id = some r)
    (hadm : m.company_tracker.active_calls r.company.id <
      r.company.max_concurrent_calls)
    (hav : m.phone_pool.available_phones = ph :: rest)
    (hph : ph ≠ "")
    (hnr : ph ∉ rest) (hni : ph ∉ m.phone_pool.in_use_phones)
    (hprov : provider (attemptRecord r ph now) = Except.ok st) :
    CallManager.execute_call_with provider m call_id now =
      some { phone_pool := m.phone_pool,
             company_tracker := m.company_tracker,
             call_records := Function.update m.call_records call_id
               (some (outcomeRecord (attemptRecord r ph now) now st)),
             call_history := Function.update m.call_history r.company.id
               (m.call_history r.company.id ++
                 [outcomeRecord (attemptRecord r ph now) now st]) } := by
  obtain ⟨⟨av, iu⟩, tracker, records, history⟩ := m
  simp only at hrec hadm hav hni
  subst hav
  unfold CallManager.execute_call_with
  dsimp only
  rw [hrec]
  simp only [increment_eq_of_lt _ _ hadm, acquire_phone_mk_cons ph rest iu,
    hprov, hph, tracker_update_decr tracker r.company hadm,
    pool_insert_release ph rest iu hnr hni, CallManager.setRecord,
    attemptRecord_company]
  simp [CallManager.setRecord]

lemma execute_call_with_main_error (provider : CallRecord → Except Unit CallStatus)
    (m : CallManager) (call_id : String) (now : Nat) (r : CallRecord)
    (ph : String) (rest : List String) (e : Unit)
    (hrec : m.call_records call_id = some r)
    (hadm : m.company_tracker.active_calls r.company.id <
      r.company.max_concurrent_calls)
    (hav : m.phone_pool.available_phones = ph :: rest)
    (hph : ph ≠ "")
    (hnr : ph ∉ rest) (hni : ph ∉ m.phone_pool.in_use_phones)
    (hprov : provider (attemptRecord r ph now) = Except.error e) :
    CallManager.execute_call_with provider m call_id now =
      some { phone_pool := m.phone_pool,
             company_tracker := m.company_tracker,
             call_records := Function.update m.call_records call_id
               (some (handle_failed_record
                 { attemptRecord r ph now with status := CallStatus.FAILED } now)),
             call_history := m.call_history } := by
  obtain ⟨⟨av, iu⟩, tracker, records, history⟩ := m
  simp only at hrec hadm hav hni
  subst hav
  unfold CallManager.execute_call_with
  dsimp only
  rw [hrec]
  simp only [increment_eq_of_lt _ _ hadm, acquire_phone_mk_cons ph rest iu,
    hprov, hph, tracker_update_decr tracker r.company hadm,
    pool_insert_release ph rest iu hnr hni, CallManager.setRecord,
    attemptRecord_company]
  simp [CallManager.setRecord]

/-! Section: C5: exponential backoff -/

lemma reschedule_call_records (m : CallManager) (call_id : String) (now : Nat)
    (r : CallRecord) (hrec : m.call_records call_id = some r) :
    (m.reschedule_call call_id now).call_records call_id =
      some (reschedule_record r now) := by
  unfold CallManager.reschedule_call
  rw [hrec]
  unfold CallManager.setRecord
  simp [Function.update_same]

lemma reschedule_call_frame (m : CallManager) (call_id : String) (now : Nat) :
    (m.reschedule_call call_id now).phone_pool = m.phone_pool ∧
    (m.reschedule_call call_id now).company_tracker = m.company_tracker ∧
    (m.reschedule_call call_id now).call_history = m.call_history := by
  unfold CallManager.reschedule_call
  cases m.call_records call_id <;> simp [CallManager.setRecord]

/-- C5: every reschedule (`_reschedule_call`) stores back the record with
`scheduled_time = now + 2 ^ attempt_count` (minutes) — using the record's
`attempt_count` at the moment of rescheduling, so a fresh record with
`attempt_count = 0` gets `now + 1` — and with the status reset to
SCHEDULED. -/
theorem C5_backoff_policy (m : CallManager) (call_id : String) (now : Nat)
    (r : CallRecord) (hrec : m.call_records call_id = some r) :
    (m.reschedule_call call_id now).call_records call_id =
      some { r with scheduled_time := now + 2 ^ r.attempt_count,
                    status := CallStatus.SCHEDULED } ∧
    (reschedule_record r now).scheduled_time = now + 2 ^ r.attempt_count ∧
    (reschedule_record r now).status = CallStatus.SCHEDULED ∧
    (r.attempt_count = 0 → (reschedule_record r now).scheduled_time = now + 1) := by
  refine ⟨reschedule_call_records m call_id now r hrec, rfl, rfl, ?_⟩
  intro h
  unfold reschedule_record
  simp [h]

/-- Witness for C5 at a concrete manager, record, and instant. -/
theorem C5_backoff_policy_witness :
    (((CallManager.init ["p1"]).setRecord "id1"
        ⟨"id1", ⟨"COMP5", "Acme", "555", 1⟩, CallStatus.SCHEDULED, 5, "",
         none, none, 0, 3, none⟩).reschedule_call "id1" 7).call_records "id1" =
      some ⟨"id1", ⟨"COMP5", "Acme", "555", 1⟩, CallStatus.SCHEDULED, 7 + 2 ^ 0, "",
         none, none, 0, 3, none⟩ :=
  (C5_backoff_policy _ "id1" 7
    ⟨"id1", ⟨"COMP5", "Acme", "555", 1⟩, CallStatus.SCHEDULED, 5, "",
     none, none, 0, 3, none⟩ (by simp [CallManager.setRecord, CallManager.init])).1

/-! Section: C6: early exits of `execute_call` -/

/-- C6: when tracker admission fails, `execute_call` (for any provider, so
no provider invocation occurs) just reschedules: the phone pool, the
tracker, and `attempt_count` are untouched; when admission succeeds but no
phone is available, the admission just taken is released (the tracker ends
unchanged), the record is rescheduled, and `attempt_count` is untouched. -/
theorem C6_early_exit_paths (provider : CallRecord → Except Unit CallStatus)
    (m : CallManager) (call_id : String) (now : Nat) (r : CallRecord)
    (hrec : m.call_records call_id = some r) :
    ((m.reschedule_call call_id now).phone_pool = m.phone_pool ∧
     (m.reschedule_call call_id now).company_tracker = m.company_tracker ∧
     (m.reschedule_call call_id now).call_records call_id =
       some (reschedule_record r now) ∧
     (reschedule_record r now).attempt_count = r.attempt_count) ∧
    (¬ m.company_tracker.active_calls r.company.id <
        r.company.max_concurrent_calls →
      CallManager.execute_call_with provider m call_id now =
        some (m.reschedule_call call_id now)) ∧
    (m.company_tracker.active_calls r.company.id <
        r.company.max_concurrent_calls →
      m.phone_pool.available_phones = [] →
      CallManager.execute_call_with provider m call_id now =
        some (m.reschedule_call call_id now)) := by
  obtain ⟨h1, h2, h3⟩ := reschedule_call_frame m call_id now
  refine ⟨⟨h1, h2, reschedule_call_records m call_id now r hrec, rfl⟩, ?_, ?_⟩
  · intro hadm
    exact execute_call_with_not_admitted provider m call_id now r hrec hadm
  · intro hadm hav
    exact execute_call_with_no_phone provider m call_id now r hrec hadm hav

/-- Witness for C6: a company whose ceiling is 0 is refused admission. -/
theorem C6_early_exit_paths_witness :
    CallManager.execute_call_with simulate_phone_call
      ((CallManager.init ["p1"]).setRecord "id1"
        ⟨"id1", ⟨"COMP0", "Acme", "555", 0⟩, CallStatus.SCHEDULED, 5, "",
         none, none, 0, 3, none⟩) "id1" 9 =
      some (((CallManager.init ["p1"]).setRecord "id1"
        ⟨"id1", ⟨"COMP0", "Acme", "555", 0⟩, CallStatus.SCHEDULED, 5, "",
         none, none, 0, 3, none⟩).reschedule_call "id1" 9) :=
  ((C6_early_exit_paths simulate_phone_call _ "id1" 9
    ⟨"id1", ⟨"COMP0", "Acme", "555", 0⟩, CallStatus.SCHEDULED, 5, "",
     none, none, 0, 3, none⟩
    (by simp [CallManager.setRecord, CallManager.init])).2.1 (by decide))

/-! Section: C3: guaranteed cleanup and exception recovery -/

/-- C3: on an executed attempt (record present, admission granted, a usable
phone at the head of the available list), for every provider behavior —
success, semantic failure, or a raised exception — `execute_call` returns
with the phone pool exactly restored and the tracker admission released;
and when the provider raises, the exception is caught and the stored record
is `_handle_failed_call` applied to the in-progress record with status
mapped to FAILED, i.e. exactly the retry policy used for a semantic FAILED
outcome. -/
theorem C3_cleanup_on_all_paths (provider : CallRecord → Except Unit CallStatus)
    (m : CallManager) (call_id : String) (now : Nat) (r : CallRecord)
    (ph : String) (rest : List String)
    (hrec : m.call_records call_id = some r)
    (hadm : m.company_tracker.active_calls r.company.id <
      r.company.max_concurrent_calls)
    (hav : m.phone_pool.available_phones = ph :: rest)
    (hph : ph ≠ "")
    (hnr : ph ∉ rest) (hni : ph ∉ m.phone_pool.in_use_phones) :
    ∃ m', CallManager.execute_call_with provider m call_id now = some m' ∧
      m'.phone_pool = m.phone_pool ∧
      m'.company_tracker = m.company_tracker ∧
      ∀ e, provider (attemptRecord r ph now) = Except.error e →
        m'.call_records call_id =
          some (handle_failed_record
            { attemptRecord r ph now with status := CallStatus.FAILED } now) := by
  cases hprov : provider (attemptRecord r ph now) with
  | ok st =>
    refine ⟨_, execute_call_with_main_ok provider m call_id now r ph rest st
      hrec hadm hav hph hnr hni hprov, rfl, rfl, ?_⟩
    intro e he
    exact absurd he (by simp)
  | error e0 =>
    refine ⟨_, execute_call_with_main_error provider m call_id now r ph rest e0
      hrec hadm hav hph hnr hni hprov, rfl, rfl, ?_⟩
    intro e _
    simp [Function.update_same]

/-- Witness for C3 with a provider that raises. -/
theorem C3_cleanup_on_all_paths_witness :
    ∃ m', CallManager.execute_call_with (fun _ => Except.error ())
        ((CallManager.init ["p1"]).setRecord "id1"
          ⟨"id1", ⟨"COMP5", "Acme", "555", 1⟩, CallStatus.SCHEDULED, 5, "",
           none, none, 0, 3, none⟩) "id1" 4 = some m' ∧
      m'.phone_pool = ((CallManager.init ["p1"]).setRecord "id1"
          ⟨"id1", ⟨"COMP5", "Acme", "555", 1⟩, CallStatus.SCHEDULED, 5, "",
           none, none, 0, 3, none⟩).phone_pool ∧
      m'.company_tracker = ((CallManager.init ["p1"]).setRecord "id1"
          ⟨"id1", ⟨"COMP5", "Acme", "555", 1⟩, CallStatus.SCHEDULED, 5, "",
           none, none, 0, 3, none⟩).company_tracker ∧
      m'.call_records "id1" =
        some (handle_failed_record
          { attemptRecord ⟨"id1", ⟨"COMP5", "Acme", "555", 1⟩,
              CallStatus.SCHEDULED, 5, "", none, none, 0, 3, none⟩ "p1" 4 with
            status := CallStatus.FAILED } 4) := by
  obtain ⟨m', h1, h2, h3, h4⟩ :=
    C3_cleanup_on_all_paths (fun _ => Except.error ())
      ((CallManager.init ["p1"]).setRecord "id1"
        ⟨"id1", ⟨"COMP5", "Acme", "555", 1⟩, CallStatus.SCHEDULED, 5, "",
         none, none, 0, 3, none⟩) "id1" 4
      ⟨"id1", ⟨"COMP5", "Acme", "555", 1⟩, CallStatus.SCHEDULED, 5, "",
       none, none, 0, 3, none⟩ "p1" []
      (by simp [CallManager.setRecord, CallManager.init])
      (by decide) (by simp [CallManager.setRecord, CallManager.init,
        PhoneNumberPool.init]) (by decide) (by decide)
      (by simp [CallManager.setRecord, CallManager.init, PhoneNumberPool.init])
  exact ⟨m', h1, h2, h3, h4 () rfl⟩

/-! Section: C4: retry policy and the attempt bound -/

lemma update_records_cases (f : String → Option CallRecord) (key : String)
    (v : CallRecord) (id : String) (r : CallRecord)
    (h : Function.update f key (some v) id = some r) :
    (id = key ∧ r = v) ∨ (id ≠ key ∧ f id = some r) := by
  by_cases hid : id = key
  · subst hid
    rw [Function.update_same] at h
    exact Or.inl ⟨rfl, (Option.some.injEq v r).mp h |>.symm⟩
  · rw [Function.update_noteq hid] at h
    exact Or.inr ⟨hid, h⟩

lemma simulate_phone_call_attempt (r : CallRecord) (ph : String) (now : Nat) :
    simulate_phone_call (attemptRecord r ph now) =
      Except.ok (simulate_status r.company.id (r.attempt_count + 1)) := rfl

lemma simulate_status_ne_scheduled (cid : String) (a : Nat) :
    simulate_status cid a ≠ CallStatus.SCHEDULED := by
  unfold simulate_status
  split_ifs <;> simp

lemma failure_ne_scheduled (st : CallStatus) (h : st ∈ failureStatuses) :
    st ≠ CallStatus.SCHEDULED := by
  intro hc
  subst hc
  revert h
  decide

lemma outcomeRecord_failure_lt (r2 : CallRecord) (now : Nat) (st : CallStatus)
    (hst : st ∈ failureStatuses) (hlt : r2.attempt_count < r2.max_attempts) :
    outcomeRecord r2 now st =
      { r2 with status := CallStatus.SCHEDULED,
                scheduled_time := now + 2 ^ r2.attempt_count,
                end_time := some now } := by
  unfold outcomeRecord handle_failed_record reschedule_record
  simp [hst, hlt]

lemma outcomeRecord_failure_exhausted (r2 : CallRecord) (now : Nat) (st : CallStatus)
    (hst : st ∈ failureStatuses) (hge : ¬ r2.attempt_count < r2.max_attempts) :
    outcomeRecord r2 now st =
      { r2 with status := st,
                notes := some "Max retry attempts reached",
                end_time := some now } := by
  unfold outcomeRecord handle_failed_record
  simp [hst, hge]

lemma outcomeRecord_success (r2 : CallRecord) (now : Nat) (st : CallStatus)
    (hst : st ∉ failureStatuses) :
    outcomeRecord r2 now st = { r2 with status := st, end_time := some now } := by
  unfold outcomeRecord
  simp [hst]

lemma execute_call_with_main_proj (provider : CallRecord → Except Unit CallStatus)
    (m : CallManager) (call_id : String) (now : Nat) (r : CallRecord)
    (ph : String) (rest : List String) (st : CallStatus)
    (hrec : m.call_records call_id = some r)
    (hadm : m.company_tracker.active_calls r.company.id <
      r.company.max_concurrent_calls)
    (hav : m.phone_pool.available_phones = ph :: rest)
    (hph : ph ≠ "")
    (hprov : provider (attemptRecord r ph now) = Except.ok st) :
    (CallManager.execute_call_with provider m call_id now).map
        CallManager.call_records =
      some (Function.update m.call_records call_id
        (some (outcomeRecord (attemptRecord r ph now) now st))) ∧
    (CallManager.execute_call_with provider m call_id now).map
        CallManager.call_history =
      some (Function.update m.call_history r.company.id
        (m.call_history r.company.id ++
          [outcomeRecord (attemptRecord r ph now) now st])) ∧
    (CallManager.execute_call_with provider m call_id now).map
        CallManager.company_tracker = some m.company_tracker := by
  obtain ⟨⟨av, iu⟩, tracker, records, history⟩ := m
  simp only at hrec hadm hav
  subst hav
  unfold CallManager.execute_call_with
  dsimp only
  rw [hrec]
  simp only [increment_eq_of_lt _ _ hadm, acquire_phone_mk_cons ph rest iu,
    hprov, hph, CallManager.setRecord, attemptRecord_company,
    tracker_update_decr tracker r.company hadm]
  refine ⟨?_, ?_, ?_⟩ <;> simp [CallManager.setRecord]

lemma execute_call_with_error_proj (provider : CallRecord → Except Unit CallStatus)
    (m : CallManager) (call_id : String) (now : Nat) (r : CallRecord)
    (ph : String) (rest : List String) (e : Unit)
    (hrec : m.call_records call_id = some r)
    (hadm : m.company_tracker.active_calls r.company.id <
      r.company.max_concurrent_calls)
    (hav : m.phone_pool.available_phones = ph :: rest)
    (hph : ph ≠ "")
    (hprov : provider (attemptRecord r ph now) = Except.error e) :
    (CallManager.execute_call_with provider m call_id now).map
        CallManager.call_records =
      some (Function.update m.call_records call_id
        (some (handle_failed_record
          { attemptRecord r ph now with status := CallStatus.FAILED } now))) ∧
    (CallManager.execute_call_with provider m call_id now).map
        CallManager.call_history = some m.call_history ∧
    (CallManager.execute_call_with provider m call_id now).map
        CallManager.company_tracker = some m.company_tracker := by
  obtain ⟨⟨av, iu⟩, tracker, records, history⟩ := m
  simp only at hrec hadm hav
  subst hav
  unfold CallManager.execute_call_with
  dsimp only
  rw [hrec]
  simp only [increment_eq_of_lt _ _ hadm, acquire_phone_mk_cons ph rest iu,
    hprov, hph, CallManager.setRecord, attemptRecord_company,
    tracker_update_decr tracker r.company hadm]
  refine ⟨?_, ?_, ?_⟩ <;> simp [CallManager.setRecord]

lemma execute_call_with_empty_phone (provider : CallRecord → Except Unit CallStatus)
    (m : CallManager) (call_id : String) (now : Nat) (r : CallRecord)
    (rest : List String)
    (hrec : m.call_records call_id = some r)
    (hadm : m.company_tracker.active_calls r.company.id <
      r.company.max_concurrent_calls)
    (hav : m.phone_pool.available_phones = "" :: rest) :
    CallManager.execute_call_with provider m call_id now =
      some (CallManager.reschedule_call
        { m with phone_pool := ⟨rest, setInsert "" m.phone_pool.in_use_phones⟩ }
        call_id now) := by
  obtain ⟨⟨av, iu⟩, tracker, records, history⟩ := m
  simp only at hrec hadm hav
  subst hav
  unfold CallManager.execute_call_with
  dsimp only
  rw [hrec]
  simp only [increment_eq_of_lt _ _ hadm, acquire_phone_mk_cons "" rest iu,
    tracker_update_decr tracker r.company hadm]
  rfl

/-- The per-record part of the retry invariant: the attempt count is bounded
by the ceiling, strictly so while the record is still SCHEDULED. -/
def RecInv (r : CallRecord) : Prop :=
  r.attempt_count ≤ r.max_attempts ∧
  (r.status = CallStatus.SCHEDULED → r.attempt_count < r.max_attempts)

/-- All stored records satisfy `RecInv`. -/
def MgrRecInv (m : CallManager) : Prop :=
  ∀ call_id r, m.call_records call_id = some r → RecInv r

/-- The discipline the system's own rescheduling produces: `execute_call` is
only invoked on call ids whose current record is in SCHEDULED status. -/
def SchedOnly : CallManager → List MgrOp → Prop
  | _, [] => True
  | m, op :: rest =>
      (∀ call_id now r, op = MgrOp.exec call_id now →
          m.call_records call_id = some r → r.status = CallStatus.SCHEDULED) ∧
      SchedOnly (m.runOp op) rest

lemma recInv_reschedule (r : CallRecord) (now : Nat)
    (hlt : r.attempt_count < r.max_attempts) :
    RecInv (reschedule_record r now) :=
  ⟨Nat.le_of_lt hlt, fun _ => hlt⟩

lemma recInv_outcome (r0 : CallRecord) (ph : String) (now : Nat)
    (hlt : r0.attempt_count < r0.max_attempts) :
    RecInv (outcomeRecord (attemptRecord r0 ph now) now
      (simulate_status r0.company.id (r0.attempt_count + 1))) := by
  set st := simulate_status r0.company.id (r0.attempt_count + 1) with hstdef
  have hr2a : (attemptRecord r0 ph now).attempt_count = r0.attempt_count + 1 := rfl
  have hr2m : (attemptRecord r0 ph now).max_attempts = r0.max_attempts := rfl
  by_cases hst : st ∈ failureStatuses
  · by_cases hlt2 : (attemptRecord r0 ph now).attempt_count <
        (attemptRecord r0 ph now).max_attempts
    · rw [outcomeRecord_failure_lt _ _ _ hst hlt2]
      exact ⟨Nat.le_of_lt hlt2, fun _ => hlt2⟩
    · rw [outcomeRecord_failure_exhausted _ _ _ hst hlt2]
      refine ⟨?_, fun hc => absurd hc (failure_ne_scheduled st hst)⟩
      show r0.attempt_count + 1 ≤ r0.max_attempts
      omega
  · rw [outcomeRecord_success _ _ _ hst]
    refine ⟨?_, fun hc => absurd hc (simulate_status_ne_scheduled _ _)⟩
    show r0.attempt_count + 1 ≤ r0.max_attempts
    omega

lemma runOp_preserves_recInv (m : CallManager) (op : MgrOp)
    (hinv : MgrRecInv m)
    (hdisc : ∀ call_id now r, op = MgrOp.exec call_id now →
        m.call_records call_id = some r → r.status = CallStatus.SCHEDULED) :
    MgrRecInv (m.runOp op) := by
  cases op with
  | getStatus a => exact hinv
  | getHistory a => exact hinv
  | getActive a => exact hinv
  | sched c t now =>
    intro id r h
    simp only [CallManager.runOp] at h
    unfold CallManager.schedule_call at h
    split at h
    · exact hinv id r h
    · simp only [CallManager.setRecord] at h
      rcases update_records_cases _ _ _ _ _ h with ⟨rfl, rfl⟩ | ⟨hne, hold⟩
      · exact ⟨Nat.zero_le _, fun _ => Nat.succ_le_succ (Nat.zero_le _)⟩
      · exact hinv id r hold
  | exec call_id now =>
    intro id r h
    simp only [CallManager.runOp] at h
    cases hrec : m.call_records call_id with
    | none =>
      rw [CallManager.execute_call,
        execute_call_with_missing _ _ _ _ hrec, Option.getD_none] at h
      exact hinv id r h
    | some r0 =>
      have hsched : r0.status = CallStatus.SCHEDULED := hdisc call_id now r0 rfl hrec
      have hlt : r0.attempt_count < r0.max_attempts := (hinv call_id r0 hrec).2 hsched
      by_cases hadm : m.company_tracker.active_calls r0.company.id <
          r0.company.max_concurrent_calls
      · cases hav : m.phone_pool.available_phones with
        | nil =>
          rw [CallManager.execute_call,
            execute_call_with_no_phone _ _ _ _ r0 hrec hadm hav,
            Option.getD_some] at h
          unfold CallManager.reschedule_call at h
          rw [hrec] at h
          simp only [CallManager.setRecord] at h
          rcases update_records_cases _ _ _ _ _ h with ⟨rfl, rfl⟩ | ⟨hne, hold⟩
          · exact recInv_reschedule r0 now hlt
          · exact hinv id r hold
        | cons ph rest =>
          by_cases hph : ph = ""
          · subst hph
            rw [CallManager.execute_call,
              execute_call_with_empty_phone _ _ _ _ r0 rest hrec hadm hav,
              Option.getD_some] at h
            unfold CallManager.reschedule_call at h
            rw [show ({ m with phone_pool :=
                (⟨rest, setInsert "" m.phone_pool.in_use_phones⟩ :
                  PhoneNumberPool) } : CallManager).call_records call_id =
                some r0 from hrec] at h
            simp only [CallManager.setRecord] at h
            rcases update_records_cases _ _ _ _ _ h with ⟨rfl, rfl⟩ | ⟨hne, hold⟩
            · exact recInv_reschedule r0 now hlt
            · exact hinv id r hold
          · have hproj := (execute_call_with_main_proj simulate_phone_call m
              call_id now r0 ph rest _ hrec hadm hav hph
              (simulate_phone_call_attempt r0 ph now)).1
            cases he : CallManager.execute_call_with simulate_phone_call m call_id now with
            | none =>
              rw [he] at hproj
              exact absurd hproj (by simp)
            | some m2 =>
              rw [CallManager.execute_call, he, Option.getD_some] at h
              rw [he] at hproj
              simp only [Option.map_some'] at hproj
              have hcr : m2.call_records =
                  Function.update m.call_records call_id
                    (some (outcomeRecord (attemptRecord r0 ph now) now
                      (simulate_status r0.company.id (r0.attempt_count + 1)))) :=
                (Option.some.injEq _ _).mp hproj
              rw [hcr] at h
              rcases update_records_cases _ _ _ _ _ h with ⟨rfl, rfl⟩ | ⟨hne, hold⟩
              · exact recInv_outcome r0 ph now hlt
              · exact hinv id r hold
      · rw [CallManager.execute_call,
          execute_call_with_not_admitted _ _ _ _ r0 hrec hadm,
          Option.getD_some] at h
        unfold CallManager.reschedule_call at h
        rw [hrec] at h
        simp only [CallManager.setRecord] at h
        rcases update_records_cases _ _ _ _ _ h with ⟨rfl, rfl⟩ | ⟨hne, hold⟩
        · exact recInv_reschedule r0 now hlt
        · exact hinv id r hold

lemma runOps_preserve_recInv (m : CallManager) (ops : List MgrOp)
    (hinv : MgrRecInv m) (hdisc : SchedOnly m ops) :
    MgrRecInv (CallManager.runOps m ops) := by
  induction ops generalizing m with
  | nil => exact hinv
  | cons op rest ih =>
    simp only [CallManager.runOps, List.foldl_cons]
    exact ih (m.runOp op)
      (runOp_preserves_recInv m op hinv hdisc.1) hdisc.2

/-- C4 (amended): after an executed attempt whose simulated outcome is a
failure-class status (BUSY, NO_ANSWER, FAILED), the stored record is the
outcome record: rescheduled with backoff (status reset to SCHEDULED) when
`attempt_count < max_attempts`, otherwise annotated with the terminal
exhaustion note, the status left at the final failure value; consequently
`attempt_count ≤ max_attempts` is preserved by every operation sequence in
which `execute_call` is only invoked on records in SCHEDULED status (the
discipline the system's own rescheduling produces — the original claim's
"any sequence of execute_call invocations" fails, see the
counterexample). -/
theorem C4_retry_policy_and_bound (m : CallManager) (call_id : String)
    (now : Nat) (r : CallRecord) (ph : String) (rest : List String)
    (hrec : m.call_records call_id = some r)
    (hadm : m.company_tracker.active_calls r.company.id <
      r.company.max_concurrent_calls)
    (hav : m.phone_pool.available_phones = ph :: rest)
    (hph : ph ≠ "") :
    ((CallManager.execute_call m call_id now).map CallManager.call_records =
      some (Function.update m.call_records call_id
        (some (outcomeRecord (attemptRecord r ph now) now
          (simulate_status r.company.id (r.attempt_count + 1)))))) ∧
    (∀ st, st ∈ failureStatuses →
      (r.attempt_count + 1 < r.max_attempts →
        outcomeRecord (attemptRecord r ph now) now st =
          { attemptRecord r ph now with
              status := CallStatus.SCHEDULED,
              scheduled_time := now + 2 ^ (r.attempt_count + 1),
              end_time := some now }) ∧
      (¬ r.attempt_count + 1 < r.max_attempts →
        outcomeRecord (attemptRecord r ph now) now st =
          { attemptRecord r ph now with
              status := st,
              notes := some "Max retry attempts reached",
              end_time := some now })) ∧
    (∀ ops, MgrRecInv m → SchedOnly m ops →
      MgrRecInv (CallManager.runOps m ops)) := by
  refine ⟨(execute_call_with_main_proj simulate_phone_call m call_id now r ph
      rest _ hrec hadm hav hph (simulate_phone_call_attempt r ph now)).1,
    ?_, ?_⟩
  · intro st hst
    exact ⟨fun hlt => outcomeRecord_failure_lt _ _ _ hst hlt,
           fun hge => outcomeRecord_failure_exhausted _ _ _ hst hge⟩
  · intro ops hinv hdisc
    exact runOps_preserve_recInv m ops hinv hdisc

/-- The company, record, manager, and trace of the C4 counterexample: a
company whose id ends in 4 (the provider always reports FAILED) whose call
is executed four times. -/
def c4cexCompany : Company := ⟨"COMP4", "Acme", "555", 1⟩

def c4cexMgr : CallManager :=
  ((CallManager.init ["p1"]).schedule_call c4cexCompany 5 0).2

def c4cexOps : List MgrOp :=
  [MgrOp.exec "CALL_COMP4_0" 0, MgrOp.exec "CALL_COMP4_0" 0,
   MgrOp.exec "CALL_COMP4_0" 0, MgrOp.exec "CALL_COMP4_0" 0]

/-- C4 counterexample: the claim's "attempt_count never exceeds
max_attempts over any sequence of execute_call invocations" is false as
stated: executing an already-exhausted (status FAILED) record a fourth time
increments `attempt_count` to 4 while `max_attempts` is 3 — nothing in
`execute_call` guards the increment. -/
theorem C4_attempt_bound_counterexample :
    ((CallManager.runOps c4cexMgr c4cexOps).call_records "CALL_COMP4_0").map
        (fun r => r.attempt_count) = some 4 ∧
    ((CallManager.runOps c4cexMgr c4cexOps).call_records "CALL_COMP4_0").map
        (fun r => r.max_attempts) = some 3 ∧
    ¬ (4 : Nat) ≤ 3 := by
  refine ⟨by decide, by decide, by decide⟩

/-- Concrete record for the C4 witness. -/
def recW4 : CallRecord :=
  ⟨"id1", ⟨"COMP4", "Acme", "555", 1⟩, CallStatus.SCHEDULED, 5, "",
   none, none, 0, 3, none⟩

/-- Witness for C4 at a concrete failing attempt. -/
theorem C4_retry_policy_and_bound_witness :
    (CallManager.execute_call
        ((CallManager.init ["p1"]).setRecord "id1" recW4) "id1" 0).map
      CallManager.call_records =
      some (Function.update
        ((CallManager.init ["p1"]).setRecord "id1" recW4).call_records "id1"
        (some (outcomeRecord (attemptRecord recW4 "p1" 0) 0
          (simulate_status recW4.company.id (recW4.attempt_count + 1))))) :=
  (C4_retry_policy_and_bound
    ((CallManager.init ["p1"]).setRecord "id1" recW4) "id1" 0 recW4 "p1" []
    (by simp [CallManager.setRecord, Function.update_same])
    (by decide) (by decide) (by decide)).1

/-! Section: C7: one history append per executed attempt -/

lemma runOp_history_len (m : CallManager) (op : MgrOp) (cid : String) :
    ((m.runOp op).call_history cid).length =
      (m.call_history cid).length +
        (if executedAttempt m op cid then 1 else 0) := by
  cases op with
  | getStatus a => simp [CallManager.runOp, executedAttempt]
  | getHistory a => simp [CallManager.runOp, executedAttempt]
  | getActive a => simp [CallManager.runOp, executedAttempt]
  | sched c t now =>
    simp only [CallManager.runOp]
    have hhist : ((m.schedule_call c t now).2).call_history = m.call_history := by
      unfold CallManager.schedule_call
      split <;> simp [CallManager.setRecord]
    rw [hhist]
    simp [executedAttempt]
  | exec call_id now =>
    simp only [CallManager.runOp]
    cases hrec : m.call_records call_id with
    | none =>
      rw [CallManager.execute_call,
        execute_call_with_missing _ _ _ _ hrec, Option.getD_none]
      simp [executedAttempt, hrec]
    | some r0 =>
      by_cases hadm : m.company_tracker.active_calls r0.company.id <
          r0.company.max_concurrent_calls
      · cases hav : m.phone_pool.available_phones with
        | nil =>
          rw [CallManager.execute_call,
            execute_call_with_no_phone _ _ _ _ r0 hrec hadm hav,
            Option.getD_some, (reschedule_call_frame m call_id now).2.2]
          simp [executedAttempt, hrec, hav]
        | cons ph rest =>
          by_cases hph : ph = ""
          · subst hph
            rw [CallManager.execute_call,
              execute_call_with_empty_phone _ _ _ _ r0 rest hrec hadm hav,
              Option.getD_some,
              (reschedule_call_frame _ call_id now).2.2]
            simp [executedAttempt, hrec, hav]
          · have hproj := (execute_call_with_main_proj simulate_phone_call m
              call_id now r0 ph rest _ hrec hadm hav hph
              (simulate_phone_call_attempt r0 ph now)).2.1
            cases he : CallManager.execute_call_with simulate_phone_call m
                call_id now with
            | none =>
              rw [he] at hproj
              exact absurd hproj (by simp)
            | some m2 =>
              rw [he] at hproj
              simp only [Option.map_some'] at hproj
              have hch : m2.call_history =
                  Function.update m.call_history r0.company.id
                    (m.call_history r0.company.id ++
                      [outcomeRecord (attemptRecord r0 ph now) now
                        (simulate_status r0.company.id (r0.attempt_count + 1))]) :=
                (Option.some.injEq _ _).mp hproj
              rw [CallManager.execute_call, he, Option.getD_some, hch]
              have hexe : executedAttempt m (MgrOp.exec call_id now) cid ↔
                  r0.company.id = cid := by
                simp [executedAttempt, hrec, hav, hph,
                  increment_active_calls_fst_iff, hadm]
              by_cases hcid : r0.company.id = cid
              · rw [hcid, Function.update_same]
                simp [hexe, hcid]
              · rw [Function.update_noteq (fun hx => hcid hx.symm)]
                simp [hexe, hcid]
      · rw [CallManager.execute_call,
          execute_call_with_not_admitted _ _ _ _ r0 hrec hadm,
          Option.getD_some, (reschedule_call_frame m call_id now).2.2]
        have : ¬ executedAttempt m (MgrOp.exec call_id now) cid := by
          simp [executedAttempt, hrec, increment_active_calls_fst_iff, hadm]
        simp [this]

lemma runOps_history_len (m : CallManager) (ops : List MgrOp) (cid : String) :
    ((CallManager.runOps m ops).call_history cid).length =
      (m.call_history cid).length + countExecuted m ops cid := by
  induction ops generalizing m with
  | nil => simp [CallManager.runOps, countExecuted]
  | cons op rest ih =>
    simp only [CallManager.runOps, List.foldl_cons, countExecuted]
    have h1 := runOp_history_len m op cid
    have h2 := ih (m.runOp op)
    simp only [CallManager.runOps] at h2
    omega

/-- C7: on an executed attempt the final record (with `end_time` set to the
current instant) is appended exactly once to the owning company's history,
other companies' histories are untouched, and over any operation sequence
the length of a company's history equals the number of executed attempts
for that company (appends happen in execution order, at the tail). -/
theorem C7_history_per_attempt (m : CallManager) (call_id : String)
    (now : Nat) (r : CallRecord) (ph : String) (rest : List String)
    (hrec : m.call_records call_id = some r)
    (hadm : m.company_tracker.active_calls r.company.id <
      r.company.max_concurrent_calls)
    (hav : m.phone_pool.available_phones = ph :: rest)
    (hph : ph ≠ "") :
    (∃ m', CallManager.execute_call m call_id now = some m' ∧
      m'.call_history r.company.id =
        m.call_history r.company.id ++
          [outcomeRecord (attemptRecord r ph now) now
            (simulate_status r.company.id (r.attempt_count + 1))] ∧
      (outcomeRecord (attemptRecord r ph now) now
        (simulate_status r.company.id (r.attempt_count + 1))).end_time =
          some now ∧
      (∀ cid, cid ≠ r.company.id → m'.call_history cid = m.call_history cid)) ∧
    (∀ ops cid, ((CallManager.runOps m ops).call_history cid).length =
      (m.call_history cid).length + countExecuted m ops cid) := by
  refine ⟨?_, fun ops cid => runOps_history_len m ops cid⟩
  have hproj := (execute_call_with_main_proj simulate_phone_call m call_id now
    r ph rest _ hrec hadm hav hph (simulate_phone_call_attempt r ph now)).2.1
  cases he : CallManager.execute_call_with simulate_phone_call m call_id now with
  | none =>
    rw [he] at hproj
    exact absurd hproj (by simp)
  | some m2 =>
    rw [he] at hproj
    simp only [Option.map_some'] at hproj
    have hch := (Option.some.injEq _ _).mp hproj
    refine ⟨m2, he, ?_, rfl, ?_⟩
    · rw [hch, Function.update_same]
    · intro cid hcid
      rw [hch, Function.update_noteq hcid]

/-- Concrete record for the C7 witness (company id ends in 5: success). -/
def recW7 : CallRecord :=
  ⟨"id1", ⟨"COMP5", "Acme", "555", 2⟩, CallStatus.SCHEDULED, 5, "",
   none, none, 0, 3, none⟩

/-- Witness for C7 at a concrete executed attempt. -/
theorem C7_history_per_attempt_witness :
    ∃ m', CallManager.execute_call
        ((CallManager.init ["p1"]).setRecord "id1" recW7) "id1" 3 = some m' ∧
      m'.call_history "COMP5" =
        ((CallManager.init ["p1"]).setRecord "id1" recW7).call_history "COMP5" ++
          [outcomeRecord (attemptRecord recW7 "p1" 3) 3
            (simulate_status "COMP5" 1)] ∧
      (outcomeRecord (attemptRecord recW7 "p1" 3) 3
        (simulate_status "COMP5" 1)).end_time = some 3 ∧
      (∀ cid, cid ≠ "COMP5" →
        m'.call_history cid =
          ((CallManager.init ["p1"]).setRecord "id1" recW7).call_history cid) :=
  (C7_history_per_attempt ((CallManager.init ["p1"]).setRecord "id1" recW7)
    "id1" 3 recW7 "p1" []
    (by simp [CallManager.setRecord, Function.update_same])
    (by decide) (by decide) (by decide)).1

/-! Section: C8: schedule_call -/

lemma can_make_call_iff (t : CompanyCallTracker) (c : Company) :
    t.can_make_call c = true ↔
      t.active_calls c.id < c.max_concurrent_calls := by
  unfold CompanyCallTracker.can_make_call
  simp

lemma schedule_call_of_no_capacity (m : CallManager) (c : Company) (t now : Nat)
    (h : ¬ m.company_tracker.active_calls c.id < c.max_concurrent_calls) :
    m.schedule_call c t now = (none, m) := by
  unfold CallManager.schedule_call
  rw [if_pos (fun hc => h ((can_make_call_iff _ _).mp hc))]

lemma schedule_call_of_capacity (m : CallManager) (c : Company) (t now : Nat)
    (h : m.company_tracker.active_calls c.id < c.max_concurrent_calls) :
    m.schedule_call c t now =
      (some ("CALL_" ++ c.id ++ "_" ++ toString now),
       m.setRecord ("CALL_" ++ c.id ++ "_" ++ toString now)
         ⟨"CALL_" ++ c.id ++ "_" ++ toString now, c, CallStatus.SCHEDULED, t, "",
          none, none, 0, 3, none⟩) := by
  unfold CallManager.schedule_call
  rw [if_neg (fun hc => hc ((can_make_call_iff _ _).mpr h))]

lemma schedule_call_frame (m : CallManager) (c : Company) (t now : Nat) :
    (m.schedule_call c t now).2.phone_pool = m.phone_pool ∧
    (m.schedule_call c t now).2.company_tracker = m.company_tracker ∧
    (m.schedule_call c t now).2.call_history = m.call_history := by
  unfold CallManager.schedule_call
  split <;> simp [CallManager.setRecord]

/-- C8 (amended): `schedule_call` returns `none` exactly when the tracker
reports the company's active count is not below its ceiling at call time; on
acceptance it stores a new CallRecord with status SCHEDULED and the given
`scheduled_time` under the id `"CALL_<company>_<timestamp>"` and returns
that id; in neither case are the tracker counts or the phone pool touched
(scheduling reserves no capacity).  The id is *not* guaranteed fresh: it is
derived from the company id and the creation timestamp only, so a second
call scheduled for the same company within the same clock tick reuses the
id and overwrites the earlier record (see the counterexample). -/
theorem C8_schedule_call_contract (m : CallManager) (company : Company)
    (t now : Nat) :
    ((m.schedule_call company t now).1 = none ↔
      ¬ m.company_tracker.active_calls company.id <
          company.max_concurrent_calls) ∧
    (m.schedule_call company t now).2.phone_pool = m.phone_pool ∧
    (m.schedule_call company t now).2.company_tracker = m.company_tracker ∧
    (m.schedule_call company t now).2.call_history = m.call_history ∧
    ((m.schedule_call company t now).1 = none →
      (m.schedule_call company t now).2 = m) ∧
    (∀ id, (m.schedule_call company t now).1 = some id →
      id = "CALL_" ++ company.id ++ "_" ++ toString now ∧
      (m.schedule_call company t now).2.call_records id =
        some ⟨id, company, CallStatus.SCHEDULED, t, "",
              none, none, 0, 3, none⟩) := by
  have hframe := schedule_call_frame m company t now
  refine ⟨?_, hframe.1, hframe.2.1, hframe.2.2, ?_, ?_⟩
  · by_cases h : m.company_tracker.active_calls company.id <
        company.max_concurrent_calls
    · rw [schedule_call_of_capacity m company t now h]
      simp [h]
    · rw [schedule_call_of_no_capacity m company t now h]
      simp [h]
  · intro hn
    by_cases h : m.company_tracker.active_calls company.id <
        company.max_concurrent_calls
    · rw [schedule_call_of_capacity m company t now h] at hn
      exact absurd hn (by simp)
    · rw [schedule_call_of_no_capacity m company t now h]
  · intro id hid
    by_cases h : m.company_tracker.active_calls company.id <
        company.max_concurrent_calls
    · rw [schedule_call_of_capacity m company t now h] at hid ⊢
      have : "CALL_" ++ company.id ++ "_" ++ toString now = id :=
        (Option.some.injEq _ _).mp hid
      subst this
      exact ⟨rfl, by simp [CallManager.setRecord, Function.update_same]⟩
    · rw [schedule_call_of_no_capacity m company t now h] at hid
      exact absurd hid (by simp)

/-- Company of the C8 counterexample and witness. -/
def c8Comp : Company := ⟨"COMP5", "Acme", "555", 3⟩

/-- Manager after a first `schedule_call` for `c8Comp` at timestamp 0. -/
def c8Mgr1 : CallManager :=
  ((CallManager.init ["p1"]).schedule_call c8Comp 10 0).2

/-- C8 counterexample: the returned call id is not fresh — scheduling the
same company twice at the same timestamp returns the id of an existing
record and overwrites it (the first record's `scheduled_time` 10 is
replaced by 20). -/
theorem C8_freshness_counterexample :
    (c8Mgr1.schedule_call c8Comp 20 0).1 = some "CALL_COMP5_0" ∧
    c8Mgr1.call_records "CALL_COMP5_0" ≠ none ∧
    ((c8Mgr1.schedule_call c8Comp 20 0).2.call_records "CALL_COMP5_0").map
      (fun r => r.scheduled_time) = some 20 ∧
    (c8Mgr1.call_records "CALL_COMP5_0").map
      (fun r => r.scheduled_time) = some 10 :=
  ⟨by decide, by decide, by decide, by decide⟩

/-- Witness for C8: a concrete accepted schedule stores the new record. -/
theorem C8_schedule_call_contract_witness :
    ((CallManager.init ["p1"]).schedule_call c8Comp 10 0).2.call_records
        "CALL_COMP5_0" =
      some ⟨"CALL_COMP5_0", c8Comp, CallStatus.SCHEDULED, 10, "",
            none, none, 0, 3, none⟩ :=
  ((C8_schedule_call_contract (CallManager.init ["p1"]) c8Comp 10 0).2.2.2.2.2
    "CALL_COMP5_0" (by decide)).2

/-! Section: C9: getters have no side effects -/

/-- Whether an operation is one of the three read-only getters. -/
def MgrOp.isGetter : MgrOp → Bool
  | MgrOp.getStatus _ => true
  | MgrOp.getHistory _ => true
  | MgrOp.getActive _ => true
  | _ => false

/-- C9: `get_call_status`, `get_company_call_history` and `get_active_calls`
only read: running any of them (individually or interleaved in any
sequence) leaves the manager state — call records, call history, tracker
counts and phone pool — exactly unchanged.  (In the source the only state
touched is a `defaultdict` default-entry insertion on a missing key, which
is invisible at the map-with-default abstraction used here.) -/
theorem C9_getters_no_side_effects (m : CallManager)
    (call_id company_id : String) :
    m.runOp (MgrOp.getStatus call_id) = m ∧
    m.runOp (MgrOp.getHistory company_id) = m ∧
    m.runOp (MgrOp.getActive company_id) = m ∧
    (∀ ops : List MgrOp, (∀ op ∈ ops, op.isGetter = true) →
      CallManager.runOps m ops = m) := by
  refine ⟨rfl, rfl, rfl, ?_⟩
  intro ops h
  induction ops with
  | nil => rfl
  | cons op rest ih =>
    have hop := h op (List.mem_cons_self _ _)
    have hm : m.runOp op = m := by
      cases op with
      | sched c t n => simp [MgrOp.isGetter] at hop
      | exec a b => simp [MgrOp.isGetter] at hop
      | getStatus a => rfl
      | getHistory a => rfl
      | getActive a => rfl
    simp only [CallManager.runOps, List.foldl_cons, hm]
    exact ih (fun o ho => h o (List.mem_cons_of_mem _ ho))

/-- Witness for C9 on a concrete state and getter sequence. -/
theorem C9_getters_no_side_effects_witness :
    CallManager.runOps (CallManager.init ["p1"])
      [MgrOp.getStatus "x", MgrOp.getHistory "y", MgrOp.getActive "z"] =
      CallManager.init ["p1"] :=
  (C9_getters_no_side_effects (CallManager.init ["p1"]) "x" "y").2.2.2
    [MgrOp.getStatus "x", MgrOp.getHistory "y", MgrOp.getActive "z"]
    (by decide)

/-! Section: C10: unknown company ids versus unknown call ids -/

/-- A trace that never admits or records a call for company id `cid`: every
scheduled company and every executed record's company has a different id. -/
def TraceAvoids : CallManager → List MgrOp → String → Prop
  | _, [], _ => True
  | m, op :: rest, cid =>
      (∀ c t n, op = MgrOp.sched c t n → c.id ≠ cid) ∧
      (∀ call_id n r, op = MgrOp.exec call_id n →
          m.call_records call_id = some r → r.company.id ≠ cid) ∧
      TraceAvoids (m.runOp op) rest cid

lemma runOp_avoid (m : CallManager) (op : MgrOp) (cid : String)
    (hs : ∀ c t n, op = MgrOp.sched c t n → c.id ≠ cid)
    (he : ∀ call_id n r, op = MgrOp.exec call_id n →
        m.call_records call_id = some r → r.company.id ≠ cid) :
    (m.runOp op).company_tracker.active_calls cid =
      m.company_tracker.active_calls cid ∧
    (m.runOp op).call_history cid = m.call_history cid := by
  cases op with
  | getStatus a => exact ⟨rfl, rfl⟩
  | getHistory a => exact ⟨rfl, rfl⟩
  | getActive a => exact ⟨rfl, rfl⟩
  | sched c t n =>
    have h := schedule_call_frame m c t n
    simp only [CallManager.runOp]
    rw [h.2.1, h.2.2]
    exact ⟨rfl, rfl⟩
  | exec call_id n =>
    simp only [CallManager.runOp]
    cases hrec : m.call_records call_id with
    | none =>
      rw [CallManager.execute_call,
        execute_call_with_missing _ _ _ _ hrec, Option.getD_none]
      exact ⟨rfl, rfl⟩
    | some r0 =>
      have hne : r0.company.id ≠ cid := he call_id n r0 rfl hrec
      by_cases hadm : m.company_tracker.active_calls r0.company.id <
          r0.company.max_concurrent_calls
      · cases hav : m.phone_pool.available_phones with
        | nil =>
          rw [CallManager.execute_call,
            execute_call_with_no_phone _ _ _ _ r0 hrec hadm hav,
            Option.getD_some]
          have h := reschedule_call_frame m call_id n
          rw [h.2.1, h.2.2]
          exact ⟨rfl, rfl⟩
        | cons ph rest =>
          by_cases hph : ph = ""
          · subst hph
            rw [CallManager.execute_call,
              execute_call_with_empty_phone _ _ _ _ r0 rest hrec hadm hav,
              Option.getD_some]
            have h := reschedule_call_frame
              { m with phone_pool :=
                  ⟨rest, setInsert "" m.phone_pool.in_use_phones⟩ } call_id n
            rw [h.2.1, h.2.2]
            exact ⟨rfl, rfl⟩
          · have hproj := execute_call_with_main_proj simulate_phone_call m
              call_id n r0 ph rest _ hrec hadm hav hph
              (simulate_phone_call_attempt r0 ph n)
            cases hex : CallManager.execute_call_with simulate_phone_call m
                call_id n with
            | none =>
              rw [hex] at hproj
              exact absurd hproj.1 (by simp)
            | some m2 =>
              obtain ⟨-, hh, ht⟩ := hproj
              rw [hex] at hh ht
              simp only [Option.map_some'] at hh ht
              have hh2 := (Option.some.injEq _ _).mp hh
              have ht2 := (Option.some.injEq _ _).mp ht
              rw [CallManager.execute_call, hex, Option.getD_some, hh2, ht2]
              rw [Function.update_noteq (Ne.symm hne)]
              exact ⟨rfl, rfl⟩
      · rw [CallManager.execute_call,
          execute_call_with_not_admitted _ _ _ _ r0 hrec hadm,
          Option.getD_some]
        have h := reschedule_call_frame m call_id n
        rw [h.2.1, h.2.2]
        exact ⟨rfl, rfl⟩

lemma runOps_avoid (m : CallManager) (ops : List MgrOp) (cid : String)
    (h : TraceAvoids m ops cid) :
    (CallManager.runOps m ops).company_tracker.active_calls cid =
      m.company_tracker.active_calls cid ∧
    (CallManager.runOps m ops).call_history cid = m.call_history cid := by
  induction ops generalizing m with
  | nil => exact ⟨rfl, rfl⟩
  | cons op rest ih =>
    obtain ⟨hs, he, hrest⟩ := h
    have h1 := runOp_avoid m op cid hs he
    have h2 := ih (m.runOp op) hrest
    simp only [CallManager.runOps, List.foldl_cons] at h2 ⊢
    exact ⟨h2.1.trans h1.1, h2.2.trans h1.2⟩

lemma execute_call_with_ne_none (provider : CallRecord → Except Unit CallStatus)
    (m : CallManager) (call_id : String) (now : Nat) (r : CallRecord)
    (hrec : m.call_records call_id = some r) :
    CallManager.execute_call_with provider m call_id now ≠ none := by
  by_cases hadm : m.company_tracker.active_calls r.company.id <
      r.company.max_concurrent_calls
  · cases hav : m.phone_pool.available_phones with
    | nil =>
      rw [execute_call_with_no_phone provider m call_id now r hrec hadm hav]
      simp
    | cons ph rest =>
      by_cases hph : ph = ""
      · subst hph
        rw [execute_call_with_empty_phone provider m call_id now r rest
          hrec hadm hav]
        simp
      · cases hprov : provider (attemptRecord r ph now) with
        | ok st =>
          have h := (execute_call_with_main_proj provider m call_id now r ph
            rest st hrec hadm hav hph hprov).1
          intro hn
          rw [hn] at h
          exact absurd h (by simp)
        | error e =>
          have h := (execute_call_with_error_proj provider m call_id now r ph
            rest e hrec hadm hav hph hprov).1
          intro hn
          rw [hn] at h
          exact absurd h (by simp)
  · rw [execute_call_with_not_admitted provider m call_id now r hrec hadm]
    simp

/-- C10: a company id for which no call was ever admitted or recorded reads
as count 0 and empty history — never an error — both on the initial state
and after any trace avoiding that company; by contrast `get_call_status`
and `execute_call` fail (a `KeyError`, modelled as `none`) exactly on call
ids that are not stored. -/
theorem C10_unknown_company_vs_call_id (ps : List String) (m : CallManager)
    (call_id cid : String) (now : Nat) :
    ((CallManager.init ps).get_active_calls cid = 0 ∧
     (CallManager.init ps).get_company_call_history cid = []) ∧
    (∀ ops, TraceAvoids (CallManager.init ps) ops cid →
      (CallManager.runOps (CallManager.init ps) ops).get_active_calls cid = 0 ∧
      (CallManager.runOps (CallManager.init ps) ops).get_company_call_history
        cid = []) ∧
    (m.get_call_status call_id = none ↔ m.call_records call_id = none) ∧
    (CallManager.execute_call m call_id now = none ↔
      m.call_records call_id = none) := by
  refine ⟨⟨rfl, rfl⟩, ?_, ?_, ?_⟩
  · intro ops h
    have := runOps_avoid (CallManager.init ps) ops cid h
    exact ⟨this.1, this.2⟩
  · unfold CallManager.get_call_status
    exact Option.map_eq_none'
  · constructor
    · intro h
      by_contra hne
      obtain ⟨r, hr⟩ := Option.ne_none_iff_exists'.mp hne
      exact execute_call_with_ne_none simulate_phone_call m call_id now r hr h
    · intro h
      exact execute_call_with_missing simulate_phone_call m call_id now h

/-- Witness for C10: after scheduling a call for company A, company B's
count and history still read as empty. -/
theorem C10_unknown_company_vs_call_id_witness :
    (CallManager.runOps (CallManager.init ["p1"])
        [MgrOp.sched ⟨"A", "n", "p", 1⟩ 1 0]).get_active_calls "B" = 0 ∧
    (CallManager.runOps (CallManager.init ["p1"])
        [MgrOp.sched ⟨"A", "n", "p", 1⟩ 1 0]).get_company_call_history
      "B" = [] :=
  by
  have hta : TraceAvoids (CallManager.init ["p1"])
      [MgrOp.sched ⟨"A", "n", "p", 1⟩ 1 0] "B" := by
    unfold TraceAvoids
    refine ⟨?_, ?_, trivial⟩
    · intro c t n hop
      cases hop
      decide
    · intro a b r hop
      cases hop
  exact (C10_unknown_company_vs_call_id ["p1"] (CallManager.init ["p1"])
    "nope" "B" 0).2.1 [MgrOp.sched ⟨"A", "n", "p", 1⟩ 1 0] hta

end Mandolin
